import Mathlib

/-!
Shallow embedding of the warning-aggregation utilities of `kube-plays`
(`main.go`, both aggregator variants), used to settle the specification
claims about the warning parser, violation tree builder, owner resolver
and reporter.
-/

/-- Mirror of Go `strings.HasPrefix` (leading-segment test). -/
def goStartsWith (s pre : String) : Bool :=
  pre.data.isPrefixOf s.data

/-- The quoted-substring scanner: mirror of applying the Go regular
expression `"([^"]+)"` with `FindAllStringSubmatch(text, -1)` and keeping
each match's first capture group.  The regex engine scans left to right,
matching a quote, one or more non-quote characters, and a closing quote,
with non-overlapping leftmost matches. -/
def findQuotedAux : List Char → Option (List Char) → List String
  | [], _ => []
  | c :: rest, none =>
      if c = '"' then findQuotedAux rest (some [])
      else findQuotedAux rest none
  | c :: rest, some acc =>
      if c = '"' then
        if acc.isEmpty then findQuotedAux rest (some [])
        else String.mk acc.reverse :: findQuotedAux rest none
      else findQuotedAux rest (some (c :: acc))

/-- All first-capture-group matches of `titleRegex` on `s`, in order. -/
def findQuoted (s : String) : List String :=
  findQuotedAux s.data none

/-- Splitting a character list around each occurrence of a one-character
separator, accumulating the current segment in reverse. -/
def splitOnChar (a : Char) : List Char → List Char → List (List Char)
  | [], acc => [acc.reverse]
  | c :: rest, acc =>
      if c = a then acc.reverse :: splitOnChar a rest []
      else splitOnChar a rest (c :: acc)

/-- Splitting a character list around each non-overlapping leftmost
occurrence of a two-character separator. -/
def splitOnChar2 (a b : Char) : List Char → List Char → List (List Char)
  | [], acc => [acc.reverse]
  | [c], acc => [(c :: acc).reverse]
  | c1 :: c2 :: rest, acc =>
      if c1 = a && c2 = b then acc.reverse :: splitOnChar2 a b rest []
      else splitOnChar2 a b (c2 :: rest) (c1 :: acc)

/-- Mirror of Go `strings.Split` for the separators appearing in the
source (all are one or two characters long): the string is split around
each non-overlapping leftmost instance of the separator, and a string
not containing the separator yields the one-element list. -/
def goSplit (s sep : String) : List String :=
  match sep.data with
  | [a] => (splitOnChar a s.data []).map String.mk
  | [a, b] => (splitOnChar2 a b s.data []).map String.mk
  | _ => [s]

/-- Mirror of Go `strings.TrimSpace`: drop leading and trailing
whitespace characters. -/
def goTrimSpace (s : String) : String :=
  String.mk (((s.data.dropWhile Char.isWhitespace).reverse.dropWhile Char.isWhitespace).reverse)

structure OwnerReference where
  Kind : String
  Name : String
deriving DecidableEq, Repr

structure Deployment where
  Name : String
deriving DecidableEq, Repr

structure Pod where
  Name : String
  OwnerReferences : List OwnerReference
deriving DecidableEq, Repr

structure PodViolation where
  Name : String
  Deployment : Option Deployment
  Pod : Option Pod
  Violations : List String
deriving DecidableEq, Repr

structure PSViolation where
  Namespace : String
  Level : String
  PodViolations : List PodViolation
deriving DecidableEq, Repr

/-- The literal prefix that classifies a warning text as namespace-shape
(`strings.HasPrefix(text, "existing pods in namespace")` in the source). -/
def nsWarningPre : String := "existing pods in namespace"

/-- The canonical (pointer-based) warnings aggregator.  The wrapped
`defaultHandler` of the Go struct is modelled as a spy: `defaultHandlerSet`
records whether a default handler is configured, and `forwarded` logs every
`(code, agent, text)` triple passed through to it. -/
structure warningsMapper where
  defaultHandlerSet : Bool
  forwarded : List (Int × String × String)
  PSViolations : List PSViolation
deriving DecidableEq, Repr

/-- The tail of `HandleWarningHeader` (canonical variant): forward the
call to the wrapped default handler when one is configured (the spy logs
the forwarded triple), otherwise return. -/
def warningsMapper.forward (w : warningsMapper) (code : Int)
    (agent : String) (text : String) : warningsMapper :=
  if w.defaultHandlerSet then
    { w with forwarded := w.forwarded ++ [(code, agent, text)] }
  else w

/-- Embedding of the canonical `warningsMapper.HandleWarningHeader`
(`main.go`, pointer-based variant).  `none` models a Go runtime panic
(index out of range): `titleMatches[0][1]` / `titleMatches[1][1]` in the
namespace branch, `w.PSViolations[len(w.PSViolations)-1]` and
`textSplit[1]` in the pod branch.  The pointer write
`lastPSViolation.PodViolations = append(...)` mutates the last stored
element in place, modelled by replacing the last list element. -/
def warningsMapper.HandleWarningHeader (w : warningsMapper) (code : Int)
    (agent : String) (text : String) : Option warningsMapper :=
  if text = "" then some w
  else
    let handled : Option warningsMapper :=
      if goStartsWith text nsWarningPre then
        let titleMatches := findQuoted text
        match titleMatches[0]?, titleMatches[1]? with
        | some nsName, some lvl =>
            some { w with PSViolations :=
                    w.PSViolations ++ [{ Namespace := nsName, Level := lvl, PodViolations := [] }] }
        | _, _ => none
      else
        match w.PSViolations.getLast? with
        | none => none
        | some lastPSViolation =>
            let textSplit := goSplit text ": "
            match textSplit[1]? with
            | none => none
            | some second =>
                let podName := goTrimSpace (textSplit.headD "")
                let violations := goSplit second ", "
                let podViolation : PodViolation :=
                  { Name := podName, Deployment := none, Pod := none, Violations := violations }
                some { w with PSViolations :=
                        w.PSViolations.dropLast ++
                          [{ lastPSViolation with
                              PodViolations := lastPSViolation.PodViolations ++ [podViolation] }] }
    handled.map (fun w' => w'.forward code agent text)

/-- Running the canonical handler over a sequence of warning texts (code 0,
empty agent), propagating a panic. -/
def runWarnings : warningsMapper → List String → Option warningsMapper
  | w, [] => some w
  | w, t :: rest =>
      match w.HandleWarningHeader 0 "" t with
      | none => none
      | some w' => runWarnings w' rest

/-- The aggregator state at program start: no default handler configured,
nothing forwarded, no violations recorded. -/
def emptyMapper : warningsMapper :=
  { defaultHandlerSet := false, forwarded := [], PSViolations := [] }

/-- Embedding of the canonical `warningsMapper.String`.  The
`json.NewEncoder(&b).Encode` call is external library code, abstracted as
the `enc` parameter; `enc` returning `none` models an encoding error. -/
def warningsMapper.String (w : warningsMapper)
    (enc : List PSViolation → Option String) : String :=
  if w.PSViolations.length = 0 then ""
  else
    match enc w.PSViolations with
    | none => ""
    | some out => out

namespace Simple

/-- Pod-violation record of the superseded value-based aggregator variant
(note the `Peployment` naming drift in the source). -/
structure PodViolation where
  Name : String
  Peployment : Option Deployment
  Violations : List String
deriving DecidableEq, Repr

/-- Namespace-violation record of the value-based variant: the pod list
holds values, not pointers. -/
structure PSViolation where
  Namespace : String
  Level : String
  PodViolations : List PodViolation
deriving DecidableEq, Repr

/-- The value-based aggregator state, with the same spy model for the
wrapped default handler. -/
structure warningsMapper where
  defaultHandlerSet : Bool
  forwarded : List (Int × String × String)
  PSViolations : List PSViolation
deriving DecidableEq, Repr

/-- Forwarding tail of the value-based variant, identical to the
canonical one. -/
def warningsMapper.forward (w : warningsMapper) (code : Int)
    (agent : String) (text : String) : warningsMapper :=
  if w.defaultHandlerSet then
    { w with forwarded := w.forwarded ++ [(code, agent, text)] }
  else w

/-- Embedding of the value-based `warningsMapper.HandleWarningHeader`
(`main.go`, first variant).  `lastPSViolation` is a value copy of the last
stored element, so the append of the parsed pod violation lands on the
copy (bound here to `_updatedCopy`) and the stored list is unchanged.
This variant splits the pod text on `":"` and the violations on `","`. -/
def warningsMapper.HandleWarningHeader (w : warningsMapper) (code : Int)
    (agent : String) (text : String) : Option warningsMapper :=
  if text = "" then some w
  else
    let handled : Option warningsMapper :=
      if goStartsWith text nsWarningPre then
        let titleMatches := findQuoted text
        match titleMatches[0]?, titleMatches[1]? with
        | some nsName, some lvl =>
            some { w with PSViolations :=
                    w.PSViolations ++ [{ Namespace := nsName, Level := lvl, PodViolations := [] }] }
        | _, _ => none
      else
        match w.PSViolations.getLast? with
        | none => none
        | some lastPSViolation =>
            let textSplit := goSplit text ":"
            match textSplit[1]? with
            | none => none
            | some second =>
                let podName := goTrimSpace (textSplit.headD "")
                let violations := goSplit second ","
                let podViolation : PodViolation :=
                  { Name := podName, Peployment := none, Violations := violations }
                let _updatedCopy :=
                  { lastPSViolation with
                      PodViolations := lastPSViolation.PodViolations ++ [podViolation] }
                some w
    handled.map (fun w' => w'.forward code agent text)

/-- Running the value-based handler over a sequence of warning texts. -/
def runWarnings : warningsMapper → List String → Option warningsMapper
  | w, [] => some w
  | w, t :: rest =>
      match w.HandleWarningHeader 0 "" t with
      | none => none
      | some w' => runWarnings w' rest

/-- The value-based aggregator's start state. -/
def emptyMapper : warningsMapper :=
  { defaultHandlerSet := false, forwarded := [], PSViolations := [] }

end Simple

/-- Projection of a namespace violation to its observable report content:
namespace, level, and each pod violation's name and violation texts. -/
def projPS (v : PSViolation) : String × String × List (String × List String) :=
  (v.Namespace, v.Level, v.PodViolations.map (fun pv => (pv.Name, pv.Violations)))

/-- The same projection for the value-based variant's records. -/
def projPSV (v : Simple.PSViolation) : String × String × List (String × List String) :=
  (v.Namespace, v.Level, v.PodViolations.map (fun pv => (pv.Name, pv.Violations)))

/-- Result of a fragment of Go code that can return an error or panic:
`ok` is normal completion, `goError` a returned non-nil `error`
(propagated by `return err`), `panicked` a runtime panic such as an
index-out-of-range. -/
inductive GoOutcome (α : Type) where
  | ok : α → GoOutcome α
  | goError : GoOutcome α
  | panicked : GoOutcome α
deriving DecidableEq, Repr

/-- Mirror of an `appsv1.ReplicaSet` in the fields the program reads. -/
structure ReplicaSet where
  Name : String
  OwnerReferences : List OwnerReference
deriving DecidableEq, Repr

/-- The cluster state visible to the enrichment pass: `Get` lookups for
pods, replica sets and deployments by namespace and name; `none` models
the API call returning an error. -/
structure Cluster where
  pods : String → String → Option Pod
  replicaSets : String → String → Option ReplicaSet
  deployments : String → String → Option Deployment

/-- Embedding of the enrichment-loop body of `app` (canonical variant):
fetch the pod named by the violation, record it, then branch on the first
owner reference's kind.  Evaluating `pod.OwnerReferences[0]` on a pod with
no owner references panics, as does `replicaSet.OwnerReferences[0]` on an
ownerless replica set; a failed `Get` returns an error. -/
def enrichPodViolation (cl : Cluster) (ns : String) (pv : PodViolation) :
    GoOutcome PodViolation :=
  match cl.pods ns pv.Name with
  | none => .goError
  | some pod =>
      let pv := { pv with Pod := some pod }
      match pod.OwnerReferences[0]? with
      | none => .panicked
      | some ref =>
          if ref.Kind = "Deployment" then
            match cl.deployments ns ref.Name with
            | none => .goError
            | some deployment => .ok { pv with Deployment := some deployment }
          else if ref.Kind = "ReplicaSet" then
            match cl.replicaSets ns ref.Name with
            | none => .goError
            | some replicaSet =>
                match replicaSet.OwnerReferences[0]? with
                | none => .panicked
                | some rsOwner =>
                    match cl.deployments ns rsOwner.Name with
                    | none => .goError
                    | some deployment => .ok { pv with Deployment := some deployment }
          else .ok pv

/-- The enrichment pass over one namespace violation's pod list, aborting
on the first error or panic. -/
def enrichPodList (cl : Cluster) (ns : String) :
    List PodViolation → GoOutcome (List PodViolation)
  | [] => .ok []
  | pv :: rest =>
      match enrichPodViolation cl ns pv with
      | .ok pv' =>
          match enrichPodList cl ns rest with
          | .ok rest' => .ok (pv' :: rest')
          | .goError => .goError
          | .panicked => .panicked
      | .goError => .goError
      | .panicked => .panicked

/-- The full enrichment pass of `app` over the collected violation tree. -/
def enrichPass (cl : Cluster) : List PSViolation → GoOutcome (List PSViolation)
  | [] => .ok []
  | psv :: rest =>
      match enrichPodList cl psv.Namespace psv.PodViolations with
      | .ok pvs =>
          match enrichPass cl rest with
          | .ok rest' => .ok ({ psv with PodViolations := pvs } :: rest')
          | .goError => .goError
          | .panicked => .panicked
      | .goError => .goError
      | .panicked => .panicked

/-- A `corev1.Namespace` in the fields the program touches: its label
map.  `none` is Go's nil map (`DeepCopy` keeps it nil); `some f` is a
non-nil map with Go read semantics (a missing key reads as the empty
string). -/
structure KNamespace where
  Labels : Option (String → String)

/-- Go map assignment `f[k] = v` on a non-nil label map. -/
def setLabel (labels : String → String) (k v : String) : String → String :=
  fun key => if key = k then v else labels key

/-- Go map read `m[k]` on the label map: a nil map reads like an empty
one. -/
def labelRead (m : Option (String → String)) (k : String) : String :=
  match m with
  | none => ""
  | some f => f k

/-- Go map assignment `m[k] = v` on the label map: assignment to an
entry in a nil map is a runtime panic. -/
def labelWrite (m : Option (String → String)) (k v : String) :
    GoOutcome (Option (String → String)) :=
  match m with
  | none => .panicked
  | some f => .ok (some (setLabel f k v))

/-- The audit-level label key used by `mapAuditToEnforce`. -/
def auditLabel : String := "pod-security.kubernetes.io/audit"

/-- The enforce-level label key used by `mapAuditToEnforce`. -/
def enforceLabel : String := "pod-security.kubernetes.io/enforce"

/-- Embedding of `mapAuditToEnforce`.  `ns := namespace.DeepCopy()`
copies the object (a nil label map stays nil) before any write; the
defaulting write inside the `if` targets the original argument
(`namespace.Labels[...] = "restricted"` — a panic when that map is
nil), while the enforce write targets the copy.  On completion the
result is (argument object after the call, returned copy). -/
def mapAuditToEnforce (nsArg : KNamespace) : GoOutcome (KNamespace × KNamespace) :=
  let ns := nsArg
  let argStep : GoOutcome KNamespace :=
    if labelRead ns.Labels auditLabel = "" then
      match labelWrite nsArg.Labels auditLabel "restricted" with
      | .ok m => .ok { nsArg with Labels := m }
      | .goError => .goError
      | .panicked => .panicked
    else .ok nsArg
  match argStep with
  | .ok nsArg' =>
      match labelWrite ns.Labels enforceLabel (labelRead nsArg'.Labels auditLabel) with
      | .ok m => .ok (nsArg', { ns with Labels := m })
      | .goError => .goError
      | .panicked => .panicked
  | .goError => .goError
  | .panicked => .panicked

/-- A namespace whose label map is nil, as `List` returns for a
namespace created without labels. -/
def nilLabelsNs : KNamespace := ⟨none⟩

/-- The namespace-shape warning text of the spec's worked example. -/
def demoNsText : String :=
  "existing pods in namespace \"p0t-sekurity\" violate the new PodSecurity enforce level \"restricted:latest\""

/-- The pod-shape warning text of the spec's worked example. -/
def demoPodText : String :=
  "p0t-sekurity: allowPrivilegeEscalation != false, unrestricted capabilities"

/-- A mapper that already recorded one namespace violation. -/
def oneViolationMapper : warningsMapper :=
  { defaultHandlerSet := false, forwarded := [],
    PSViolations := [{ Namespace := "n", Level := "l", PodViolations := [] }] }

/-- A mapper with a configured default handler and nothing recorded. -/
def spyMapper : warningsMapper :=
  { defaultHandlerSet := true, forwarded := [], PSViolations := [] }

/-- A pod with no owner references. -/
def noOwnerPod : Pod := { Name := "lonely", OwnerReferences := [] }

/-- The pod violation naming that pod. -/
def lonelyPV : PodViolation :=
  { Name := "lonely", Deployment := none, Pod := none, Violations := ["v"] }

/-- A cluster holding only the ownerless pod. -/
def lonelyCluster : Cluster :=
  { pods := fun ns name => if ns = "team-a" ∧ name = "lonely" then some noOwnerPod else none,
    replicaSets := fun _ _ => none,
    deployments := fun _ _ => none }

/-- A pod whose first owner reference is a DaemonSet (neither Deployment
nor ReplicaSet). -/
def daemonPod : Pod :=
  { Name := "dpod", OwnerReferences := [{ Kind := "DaemonSet", Name := "ds" }] }

/-- The pod violation naming the DaemonSet-owned pod. -/
def daemonPV : PodViolation :=
  { Name := "dpod", Deployment := none, Pod := none, Violations := ["cap"] }

/-- A cluster holding only the DaemonSet-owned pod. -/
def daemonCluster : Cluster :=
  { pods := fun ns name => if ns = "team-a" ∧ name = "dpod" then some daemonPod else none,
    replicaSets := fun _ _ => none,
    deployments := fun _ _ => none }

/-- A pod owned by a ReplicaSet. -/
def rsPod : Pod :=
  { Name := "web-1", OwnerReferences := [{ Kind := "ReplicaSet", Name := "web-rs" }] }

/-- The ReplicaSet owning that pod, itself owned by a Deployment. -/
def webRS : ReplicaSet :=
  { Name := "web-rs", OwnerReferences := [{ Kind := "Deployment", Name := "web" }] }

/-- The Deployment at the top of the ownership chain. -/
def webDeploy : Deployment := { Name := "web" }

/-- The pod violation naming the ReplicaSet-owned pod. -/
def webPV : PodViolation :=
  { Name := "web-1", Deployment := none, Pod := none, Violations := ["x"] }

/-- A cluster with the full Pod → ReplicaSet → Deployment chain. -/
def webCluster : Cluster :=
  { pods := fun ns name => if ns = "team-b" ∧ name = "web-1" then some rsPod else none,
    replicaSets := fun ns name => if ns = "team-b" ∧ name = "web-rs" then some webRS else none,
    deployments := fun ns name => if ns = "team-b" ∧ name = "web" then some webDeploy else none }

/-- The non-nil label map of the demo namespace: audit label unset, one
unrelated label `team = x`. -/
def demoLabels : String → String :=
  fun k => if k = "team" then "x" else ""

/-- A namespace object with a non-nil label map whose audit label is
unset and that carries one unrelated label. -/
def demoKNs : KNamespace :=
  ⟨some demoLabels⟩

/-- The state the value-based aggregator reaches on the worked example:
the namespace violation is recorded, but the pod violation is lost. -/
def simpleDemoResult : Simple.warningsMapper :=
  { defaultHandlerSet := false, forwarded := [],
    PSViolations := [{ Namespace := "p0t-sekurity", Level := "restricted:latest",
                       PodViolations := [] }] }

theorem forward_PSViolations (w : warningsMapper) (c : Int) (a t : String) :
    (w.forward c a t).PSViolations = w.PSViolations := by
  unfold warningsMapper.forward
  split <;> rfl

theorem handle_empty (w : warningsMapper) (c : Int) (a : String) :
    w.HandleWarningHeader c a "" = some w := by
  unfold warningsMapper.HandleWarningHeader
  simp

theorem handle_ns (w : warningsMapper) (c : Int) (a t nsName lvl : String) (rest : List String)
    (ht : t ≠ "") (hp : goStartsWith t nsWarningPre = true)
    (hq : findQuoted t = nsName :: lvl :: rest) :
    w.HandleWarningHeader c a t =
      some (({ w with PSViolations :=
          w.PSViolations ++ [({ Namespace := nsName, Level := lvl, PodViolations := [] } : PSViolation)] }).forward c a t) := by
  unfold warningsMapper.HandleWarningHeader
  simp [ht, hp, hq]

theorem handle_pod (w : warningsMapper) (c : Int) (a t : String) (last : PSViolation)
    (p0 p1 : String) (rest : List String)
    (ht : t ≠ "") (hp : goStartsWith t nsWarningPre = false)
    (hl : w.PSViolations.getLast? = some last)
    (hs : goSplit t ": " = p0 :: p1 :: rest) :
    w.HandleWarningHeader c a t =
      some (({ w with PSViolations := w.PSViolations.dropLast ++
          [{ last with PodViolations := last.PodViolations ++
              [({ Name := goTrimSpace p0, Deployment := none, Pod := none,
                  Violations := goSplit p1 ", " } : PodViolation)] }] }).forward c a t) := by
  unfold warningsMapper.HandleWarningHeader
  simp [ht, hp, hl, hs]

theorem handle_pod_nolast (w : warningsMapper) (c : Int) (a t : String)
    (ht : t ≠ "") (hp : goStartsWith t nsWarningPre = false)
    (hl : w.PSViolations = []) :
    w.HandleWarningHeader c a t = none := by
  unfold warningsMapper.HandleWarningHeader
  simp [ht, hp, hl]

theorem cons2_of_two_le {α : Type} (l : List α) (h : 2 ≤ l.length) :
    ∃ a b r, l = a :: b :: r := by
  match l with
  | [] => simp at h
  | [a] => simp at h
  | a :: b :: r => exact ⟨a, b, r, rfl⟩

theorem goStartsWith_blank : goStartsWith "" nsWarningPre = false := by decide

/-- Well-formedness of a namespace-shape text: at least two quoted
substrings, otherwise `titleMatches[1][1]` panics. -/
def wfNsText (t : String) : Bool := decide (2 ≤ (findQuoted t).length)

/-- Well-formedness of a pod-shape text: the separator occurs, otherwise
`textSplit[1]` panics. -/
def wfPodText (t : String) : Bool := decide (2 ≤ (goSplit t ": ").length)

/-- The guarded-sequence predicate for the tree-builder property: the
flag records whether a namespace-shape warning has been handled so far;
every namespace-shape text must be well formed, and every pod-shape text
must be well formed and arrive once the flag is set. -/
def okSeq : Bool → List String → Bool
  | _, [] => true
  | b, t :: r =>
      if t = "" then okSeq b r
      else if goStartsWith t nsWarningPre then wfNsText t && okSeq true r
      else b && wfPodText t && okSeq b r

/-- The expected (namespace, level) headers of a warning sequence: one
per namespace-shape message occurrence, in arrival order, taken from its
first two quoted substrings. -/
def nsHeaders (msgs : List String) : List (String × String) :=
  (msgs.filter (fun t => goStartsWith t nsWarningPre)).map
    (fun t => ((findQuoted t)[0]?.getD "", (findQuoted t)[1]?.getD ""))

/-- Header projection of a stored namespace violation. -/
def projNL (v : PSViolation) : String × String := (v.Namespace, v.Level)

theorem runWarnings_ok (msgs : List String) : ∀ w : warningsMapper,
    okSeq (!w.PSViolations.isEmpty) msgs = true →
    ∃ w', runWarnings w msgs = some w' ∧
      w'.PSViolations.map projNL = w.PSViolations.map projNL ++ nsHeaders msgs := by
  induction msgs with
  | nil =>
      intro w _
      exact ⟨w, rfl, by simp [nsHeaders]⟩
  | cons t r ih =>
      intro w h
      by_cases ht : t = ""
      · subst ht
        simp only [okSeq, if_pos] at h
        obtain ⟨w', hrun, hmap⟩ := ih w h
        refine ⟨w', ?_, ?_⟩
        · simp [runWarnings, handle_empty, hrun]
        · simpa [nsHeaders, goStartsWith_blank] using hmap
      · by_cases hp : goStartsWith t nsWarningPre = true
        · simp only [okSeq, if_neg ht, hp, if_pos, Bool.and_eq_true] at h
          obtain ⟨hwf, hrest⟩ := h
          obtain ⟨nsName, lvl, qrest, hq⟩ :=
            cons2_of_two_le _ (of_decide_eq_true hwf)
          set w1 := ({ w with PSViolations :=
              w.PSViolations ++ [({ Namespace := nsName, Level := lvl, PodViolations := [] } : PSViolation)] }).forward 0 "" t with hw1
          have hstep := handle_ns w 0 "" t nsName lvl qrest ht hp hq
          have hpsv1 : w1.PSViolations =
              w.PSViolations ++ [({ Namespace := nsName, Level := lvl, PodViolations := [] } : PSViolation)] := by
            rw [hw1, forward_PSViolations]
          have hflag : (!w1.PSViolations.isEmpty) = true := by
            simp [hpsv1]
          obtain ⟨w', hrun, hmap⟩ := ih w1 (by rw [hflag]; exact hrest)
          refine ⟨w', ?_, ?_⟩
          · simp [runWarnings, hstep, hrun]
          · rw [hmap, hpsv1]
            simp only [nsHeaders, List.filter_cons, hp, List.map_cons, List.map_append]
            simp [hq, projNL, List.append_assoc, nsHeaders]
        · have hp' : goStartsWith t nsWarningPre = false := by
            simpa using hp
          unfold okSeq at h
          rw [if_neg ht] at h
          simp only [hp', Bool.false_eq_true, if_false, Bool.and_eq_true] at h
          obtain ⟨⟨hb, hwf⟩, hrest⟩ := h
          have hne : w.PSViolations ≠ [] := by
            simpa using hb
          have hl : w.PSViolations.getLast? = some (w.PSViolations.getLast hne) :=
            List.getLast?_eq_getLast_of_ne_nil hne
          obtain ⟨p0, p1, srest, hs⟩ :=
            cons2_of_two_le _ (of_decide_eq_true hwf)
          set lastV := w.PSViolations.getLast hne with hlastV
          set lastV' := { lastV with PodViolations := lastV.PodViolations ++
              [({ Name := goTrimSpace p0, Deployment := none, Pod := none,
                  Violations := goSplit p1 ", " } : PodViolation)] } with hlastV'
          set w1 := ({ w with PSViolations :=
              w.PSViolations.dropLast ++ [lastV'] }).forward 0 "" t with hw1
          have hstep := handle_pod w 0 "" t lastV p0 p1 srest ht hp' hl hs
          have hpsv1 : w1.PSViolations = w.PSViolations.dropLast ++ [lastV'] := by
            rw [hw1, forward_PSViolations]
          have hflag : (!w1.PSViolations.isEmpty) = true := by
            simp [hpsv1]
          obtain ⟨w', hrun, hmap⟩ := ih w1 (by rw [hflag]; rw [hb] at hrest; exact hrest)
          have hproj : w1.PSViolations.map projNL = w.PSViolations.map projNL := by
            rw [hpsv1]
            have h1 : projNL lastV' = projNL lastV := rfl
            calc (w.PSViolations.dropLast ++ [lastV']).map projNL
                = w.PSViolations.dropLast.map projNL ++ [projNL lastV] := by
                  simp [h1]
              _ = (w.PSViolations.dropLast ++ [lastV]).map projNL := by simp
              _ = w.PSViolations.map projNL := by
                  rw [List.dropLast_append_getLast hne]
          refine ⟨w', ?_, ?_⟩
          · simp [runWarnings, hstep, hrun]
          · rw [hmap, hproj]
            simp [nsHeaders, List.filter_cons, hp']

/-- C2: starting from an empty mapper, the namespace warning
`existing pods in namespace "p0t-sekurity" violate the new PodSecurity
enforce level "restricted:latest"` followed by
`p0t-sekurity: allowPrivilegeEscalation != false, unrestricted capabilities`
yields exactly one NamespaceViolation with Namespace `p0t-sekurity` and
Level `restricted:latest`, containing exactly one PodViolation named
`p0t-sekurity` with Violations `allowPrivilegeEscalation != false` and
`unrestricted capabilities`. -/
theorem claim_c2 :
    runWarnings emptyMapper [demoNsText, demoPodText] =
      some { defaultHandlerSet := false, forwarded := [],
             PSViolations := [{ Namespace := "p0t-sekurity", Level := "restricted:latest",
                                PodViolations := [{ Name := "p0t-sekurity", Deployment := none, Pod := none,
                                                    Violations := ["allowPrivilegeEscalation != false",
                                                                   "unrestricted capabilities"] }] }] } := by
  decide

/-- C4 counterexample: with a default handler configured, handling empty
text returns the state unchanged, so nothing is forwarded to the spy —
the claim that the call is still forwarded for empty text is false. -/
theorem claim_c4_counterexample :
    spyMapper.defaultHandlerSet = true ∧
    spyMapper.HandleWarningHeader 299 "agent" "" = some spyMapper ∧
    spyMapper.forwarded = [] := by
  decide

/-- C4 (amended): a call with empty text leaves the whole aggregator
state unchanged — the violation tree is untouched and nothing is
forwarded to the default handler, whether or not one is configured. -/
theorem claim_c4_amended (w : warningsMapper) (c : Int) (a : String) :
    w.HandleWarningHeader c a "" = some w :=
  handle_empty w c a

/-- C5 counterexample: on the pod-shape text `mypod: a: b, c`, which
contains two occurrences of `": "`, the stored violations list is
`["a"]` (the segment between the first and second occurrence), not
`["a: b", "c"]` (everything after the first occurrence split on `", "`)
as the claim states. -/
theorem claim_c5_counterexample :
    (oneViolationMapper.HandleWarningHeader 0 "" "mypod: a: b, c").map
        (fun w => w.PSViolations.map projPS) =
      some [("n", "l", [("mypod", ["a"])])] ∧
    (["a"] : List String) ≠ ["a: b", "c"] := by
  decide

/-- C5 (amended): the pod-shape parser splits the text on every
occurrence of `": "`; the pod name is the first segment trimmed of
surrounding whitespace, and the violations are the second segment (the
text between the first and second occurrences when there is more than
one) split on `", "`. -/
theorem claim_c5_amended (w : warningsMapper) (c : Int) (a t : String)
    (lastV : PSViolation) (p0 p1 : String) (rest : List String)
    (ht : t ≠ "") (hp : goStartsWith t nsWarningPre = false)
    (hl : w.PSViolations.getLast? = some lastV)
    (hs : goSplit t ": " = p0 :: p1 :: rest) :
    w.HandleWarningHeader c a t =
      some (({ w with PSViolations := w.PSViolations.dropLast ++
          [{ lastV with PodViolations := lastV.PodViolations ++
              [({ Name := goTrimSpace p0, Deployment := none, Pod := none,
                  Violations := goSplit p1 ", " } : PodViolation)] }] }).forward c a t) :=
  handle_pod w c a t lastV p0 p1 rest ht hp hl hs

/-- C5 witness: the amended parsing law instantiated on the concrete
text `mypod: a: b, c` over a mapper holding one namespace violation. -/
theorem claim_c5_witness :
    oneViolationMapper.HandleWarningHeader 0 "" "mypod: a: b, c" =
      some (({ oneViolationMapper with PSViolations :=
          oneViolationMapper.PSViolations.dropLast ++
          [({ Namespace := "n", Level := "l",
              PodViolations := [{ Name := goTrimSpace "mypod", Deployment := none, Pod := none,
                                  Violations := goSplit "a" ", " }] } : PSViolation)] }).forward 0 "" "mypod: a: b, c") :=
  claim_c5_amended oneViolationMapper 0 "" "mypod: a: b, c"
    { Namespace := "n", Level := "l", PodViolations := [] } "mypod" "a" ["b, c"]
    (by decide) (by decide) (by decide) (by decide)

/-- C3: a non-empty pod-shape text handled while the violation list is
empty panics (index out of bounds on the empty list); once at least one
namespace violation is recorded, the last-element access succeeds, and
the handler completes whenever the text also contains the `": "`
separator. -/
theorem claim_c3 (c : Int) (a t : String) (w : warningsMapper)
    (ht : t ≠ "") (hp : goStartsWith t nsWarningPre = false) :
    (w.PSViolations = [] → w.HandleWarningHeader c a t = none) ∧
    (w.PSViolations ≠ [] →
      ∃ lastV, w.PSViolations.getLast? = some lastV ∧
        (2 ≤ (goSplit t ": ").length → (w.HandleWarningHeader c a t).isSome = true)) := by
  constructor
  · intro hl
    exact handle_pod_nolast w c a t ht hp hl
  · intro hne
    refine ⟨w.PSViolations.getLast hne, List.getLast?_eq_getLast_of_ne_nil hne, ?_⟩
    intro hlen
    obtain ⟨p0, p1, rest, hs⟩ := cons2_of_two_le _ hlen
    rw [handle_pod w c a t _ p0 p1 rest ht hp (List.getLast?_eq_getLast_of_ne_nil hne) hs]
    rfl

/-- C3 witness: the pod-shape text `p: a` panics on the empty mapper and
succeeds on a mapper holding one namespace violation. -/
theorem claim_c3_witness :
    emptyMapper.HandleWarningHeader 7 "agent" "p: a" = none ∧
    (oneViolationMapper.HandleWarningHeader 7 "agent" "p: a").isSome = true := by
  constructor
  · exact (claim_c3 7 "agent" "p: a" emptyMapper (by decide) (by decide)).1 rfl
  · obtain ⟨lastV, _, himp⟩ :=
      (claim_c3 7 "agent" "p: a" oneViolationMapper (by decide) (by decide)).2 (by decide)
    exact himp (by decide)

/-- C8: the reporter returns the empty string when no violations are
stored (hence neither `[]` nor `null`), returns the encoder's output on
the full stored list otherwise, and degrades an encoding error to the
empty string. -/
theorem claim_c8 (w : warningsMapper) (enc : List PSViolation → Option String) :
    (w.PSViolations = [] → w.String enc = "") ∧
    (w.PSViolations ≠ [] → enc w.PSViolations = none → w.String enc = "") ∧
    (∀ out, w.PSViolations ≠ [] → enc w.PSViolations = some out → w.String enc = out) := by
  refine ⟨?_, ?_, ?_⟩
  · intro hl
    simp [warningsMapper.String, hl]
  · intro hne henc
    simp [warningsMapper.String, List.length_eq_zero, hne, henc]
  · intro out hne henc
    simp [warningsMapper.String, List.length_eq_zero, hne, henc]

/-- C8 witness: on the empty mapper any encoder yields `""`; on a
one-violation mapper a failing encoder yields `""` and a succeeding
encoder's output is returned verbatim. -/
theorem claim_c8_witness :
    emptyMapper.String (fun _ => some "serialized") = "" ∧
    oneViolationMapper.String (fun _ => none) = "" ∧
    oneViolationMapper.String (fun _ => some "serialized") = "serialized" := by
  refine ⟨(claim_c8 emptyMapper _).1 rfl,
          (claim_c8 oneViolationMapper _).2.1 (by decide) rfl,
          (claim_c8 oneViolationMapper _).2.2 "serialized" (by decide) rfl⟩

/-- C1 counterexample: the same well-formed namespace-shape warning
handled twice yields two stored NamespaceViolations, although the
sequence contains only one distinct namespace-shape message — so the
tree does not have exactly one NamespaceViolation per distinct message. -/
theorem claim_c1_counterexample :
    (runWarnings emptyMapper [demoNsText, demoNsText]).map
        (fun w => w.PSViolations.length) = some 2 ∧
    (([demoNsText, demoNsText].filter
        (fun t => goStartsWith t nsWarningPre)).dedup).length = 1 := by
  decide

/-- C1 (amended): for every warning sequence in which each
namespace-shape message contains at least two quoted substrings and each
pod-shape message contains the `": "` separator and arrives after some
namespace-shape message, the run completes and the stored tree holds
exactly one NamespaceViolation per namespace-shape message occurrence
(duplicates included), in arrival order, with namespace and level taken
from that message's first two quoted substrings. -/
theorem claim_c1_amended (msgs : List String) (h : okSeq false msgs = true) :
    ∃ w', runWarnings emptyMapper msgs = some w' ∧
      w'.PSViolations.map projNL = nsHeaders msgs := by
  obtain ⟨w', hrun, hmap⟩ := runWarnings_ok msgs emptyMapper h
  exact ⟨w', hrun, by simpa [emptyMapper] using hmap⟩

/-- C1 witness: the amended tree-builder law instantiated on the worked
two-message example. -/
theorem claim_c1_witness :
    okSeq false [demoNsText, demoPodText] = true ∧
    ∃ w', runWarnings emptyMapper [demoNsText, demoPodText] = some w' ∧
      w'.PSViolations.map projNL = nsHeaders [demoNsText, demoPodText] :=
  ⟨by decide, claim_c1_amended [demoNsText, demoPodText] (by decide)⟩

/-- C6 counterexample: a fetched pod with no owner references does not
leave the deployment unset and continue — evaluating
`pod.OwnerReferences[0]` panics the enrichment pass. -/
theorem claim_c6_counterexample :
    lonelyCluster.pods "team-a" "lonely" = some noOwnerPod ∧
    noOwnerPod.OwnerReferences = [] ∧
    enrichPodViolation lonelyCluster "team-a" lonelyPV = GoOutcome.panicked := by
  decide

/-- C6 (amended): when the fetched pod's first owner reference exists
and is of a kind other than Deployment or ReplicaSet, the deployment
field is left unset and the enrichment continues without error; when the
fetched pod has no owner references at all, the enrichment pass panics. -/
theorem claim_c6_amended (cl : Cluster) (ns : String) (pv : PodViolation) (pod : Pod)
    (hpod : cl.pods ns pv.Name = some pod) :
    (∀ ref rest, pod.OwnerReferences = ref :: rest →
        ref.Kind ≠ "Deployment" → ref.Kind ≠ "ReplicaSet" →
        enrichPodViolation cl ns pv = GoOutcome.ok { pv with Pod := some pod }) ∧
    (pod.OwnerReferences = [] →
        enrichPodViolation cl ns pv = GoOutcome.panicked) := by
  constructor
  · intro ref rest href hd hr
    unfold enrichPodViolation
    simp [hpod, href, hd, hr]
  · intro href
    unfold enrichPodViolation
    simp [hpod, href]

/-- C6 witness: a DaemonSet-owned pod is enriched without error and
without a deployment, and an ownerless pod panics the pass. -/
theorem claim_c6_witness :
    enrichPodViolation daemonCluster "team-a" daemonPV =
      GoOutcome.ok { daemonPV with Pod := some daemonPod } ∧
    enrichPodViolation lonelyCluster "team-a" lonelyPV = GoOutcome.panicked := by
  refine ⟨(claim_c6_amended daemonCluster "team-a" daemonPV daemonPod (by decide)).1
            { Kind := "DaemonSet", Name := "ds" } [] rfl (by decide) (by decide),
          (claim_c6_amended lonelyCluster "team-a" lonelyPV noOwnerPod (by decide)).2 rfl⟩

/-- C7: when the fetched pod's first owner reference has kind
ReplicaSet, the stored deployment is the one fetched under the
ReplicaSet's own first owner reference's name — the ReplicaSet's owning
Deployment, not the ReplicaSet itself; when the first owner reference
has kind Deployment, that deployment is fetched and stored directly. -/
theorem claim_c7 (cl : Cluster) (ns : String) (pv : PodViolation) (pod : Pod)
    (ref : OwnerReference) (orest : List OwnerReference)
    (hpod : cl.pods ns pv.Name = some pod)
    (href : pod.OwnerReferences = ref :: orest) :
    (∀ rs rsOwner rrest deployment,
        ref.Kind = "ReplicaSet" →
        cl.replicaSets ns ref.Name = some rs →
        rs.OwnerReferences = rsOwner :: rrest →
        cl.deployments ns rsOwner.Name = some deployment →
        enrichPodViolation cl ns pv =
          GoOutcome.ok { pv with Pod := some pod, Deployment := some deployment }) ∧
    (∀ deployment, ref.Kind = "Deployment" →
        cl.deployments ns ref.Name = some deployment →
        enrichPodViolation cl ns pv =
          GoOutcome.ok { pv with Pod := some pod, Deployment := some deployment }) := by
  constructor
  · intro rs rsOwner rrest deployment hkind hrs hrsown hdep
    have hnd : ¬ ref.Kind = "Deployment" := by
      rw [hkind]; decide
    unfold enrichPodViolation
    simp [hpod, href, hnd, hkind, hrs, hrsown, hdep]
  · intro deployment hkind hdep
    unfold enrichPodViolation
    simp [hpod, href, hkind, hdep]

/-- C7 witness: the Pod → ReplicaSet → Deployment chain of the demo
cluster resolves the pod violation to the Deployment `web`. -/
theorem claim_c7_witness :
    enrichPodViolation webCluster "team-b" webPV =
      GoOutcome.ok { webPV with Pod := some rsPod, Deployment := some webDeploy } :=
  (claim_c7 webCluster "team-b" webPV rsPod
      { Kind := "ReplicaSet", Name := "web-rs" } [] (by decide) rfl).1
    webRS { Kind := "Deployment", Name := "web" } [] webDeploy rfl (by decide) rfl (by decide)

/-- C10 counterexample: for a namespace whose label map is nil the
audit label reads empty — inside the claim's antecedent — but the
defaulting write `namespace.Labels[...] = "restricted"` is an
assignment to an entry in a nil map, so `mapAuditToEnforce` panics
instead of mutating the input and returning the described copy. -/
theorem claim_c10_counterexample :
    nilLabelsNs.Labels = none ∧
    labelRead nilLabelsNs.Labels auditLabel = "" ∧
    mapAuditToEnforce nilLabelsNs = GoOutcome.panicked :=
  ⟨rfl, rfl, rfl⟩

/-- C10 (amended): on an input whose label map is nil (its audit label
reads empty) `mapAuditToEnforce` panics at the defaulting write instead
of mutating; on an input with a non-nil label map the call completes
and mutates its argument — an empty audit label is set to `restricted`
on the original object (not on the returned copy), the returned copy's
enforce label equals the argument's audit label after this defaulting,
the copy's audit label keeps the original (possibly empty) value, and
every label other than enforce is unchanged on the copy (as is every
label other than audit on the argument). -/
theorem claim_c10_amended (nsArg : KNamespace) :
    (nsArg.Labels = none → mapAuditToEnforce nsArg = GoOutcome.panicked) ∧
    (∀ f, nsArg.Labels = some f →
      ∃ nsArg' ret, mapAuditToEnforce nsArg = GoOutcome.ok (nsArg', ret) ∧
        ((f auditLabel = "" → labelRead nsArg'.Labels auditLabel = "restricted") ∧
         (f auditLabel ≠ "" → nsArg' = nsArg) ∧
         (∀ k, k ≠ auditLabel → labelRead nsArg'.Labels k = f k)) ∧
        (labelRead ret.Labels enforceLabel = labelRead nsArg'.Labels auditLabel ∧
         labelRead ret.Labels auditLabel = f auditLabel ∧
         (∀ k, k ≠ enforceLabel → labelRead ret.Labels k = f k))) := by
  have hae : ¬ auditLabel = enforceLabel := by decide
  constructor
  · intro hnil
    simp [mapAuditToEnforce, labelRead, labelWrite, hnil]
  · intro f hf
    by_cases hempty : f auditLabel = ""
    · refine ⟨{ nsArg with Labels := some (setLabel f auditLabel "restricted") },
              { nsArg with Labels := some (setLabel f enforceLabel "restricted") },
              ?_, ⟨fun _ => ?_, fun hne => absurd hempty hne, fun k hk => ?_⟩,
              ?_, ?_, fun k hk => ?_⟩
      · simp [mapAuditToEnforce, labelWrite, labelRead, setLabel, hf, hempty]
      · simp [labelRead, setLabel]
      · simp [labelRead, setLabel, hk]
      · simp [labelRead, setLabel]
      · simp [labelRead, setLabel, hae]
      · simp [labelRead, setLabel, hk]
    · refine ⟨nsArg, { nsArg with Labels := some (setLabel f enforceLabel (f auditLabel)) },
              ?_, ⟨fun he => absurd he hempty, fun _ => rfl, fun k _ => ?_⟩,
              ?_, ?_, fun k hk => ?_⟩
      · simp [mapAuditToEnforce, labelWrite, labelRead, setLabel, hf, hempty]
      · simp [labelRead, hf]
      · simp [labelRead, setLabel, hf]
      · simp [labelRead, setLabel, hae]
      · simp [labelRead, setLabel, hk]

/-- C10 witness: the nil-label-map namespace panics the call, while on
the demo namespace with a non-nil map, empty audit label and unrelated
label `team = x`, the argument's audit label is defaulted to
`restricted`, the returned copy's enforce label is `restricted`, its
audit label stays empty, and the unrelated label is preserved. -/
theorem claim_c10_witness :
    mapAuditToEnforce nilLabelsNs = GoOutcome.panicked ∧
    ∃ nsArg' ret, mapAuditToEnforce demoKNs = GoOutcome.ok (nsArg', ret) ∧
      labelRead nsArg'.Labels auditLabel = "restricted" ∧
      labelRead ret.Labels enforceLabel = "restricted" ∧
      labelRead ret.Labels auditLabel = "" ∧
      labelRead ret.Labels "team" = "x" := by
  constructor
  · exact (claim_c10_amended nilLabelsNs).1 rfl
  · obtain ⟨nsArg', ret, hok, ⟨ha1, _, _⟩, hb1, hb2, hb3⟩ :=
      (claim_c10_amended demoKNs).2 demoLabels rfl
    have hempty : demoLabels auditLabel = "" := by decide
    have h1 := ha1 hempty
    refine ⟨nsArg', ret, hok, h1, ?_, ?_, ?_⟩
    · rw [hb1, h1]
    · rw [hb2, hempty]
    · rw [hb3 "team" (by decide)]
      decide

theorem simple_forward_PSViolations (w : Simple.warningsMapper) (c : Int) (a t : String) :
    (w.forward c a t).PSViolations = w.PSViolations := by
  unfold Simple.warningsMapper.forward
  split <;> rfl

theorem simple_handle_cases (w : Simple.warningsMapper) (c : Int) (a t : String)
    (w1 : Simple.warningsMapper)
    (h : w.HandleWarningHeader c a t = some w1) :
    w1.PSViolations = w.PSViolations ∨
    ∃ nsName lvl, w1.PSViolations =
      w.PSViolations ++ [({ Namespace := nsName, Level := lvl, PodViolations := [] } : Simple.PSViolation)] := by
  unfold Simple.warningsMapper.HandleWarningHeader at h
  by_cases ht : t = ""
  · rw [if_pos ht] at h
    left
    cases h
    rfl
  · rw [if_neg ht] at h
    by_cases hp : goStartsWith t nsWarningPre = true
    · cases hq0 : (findQuoted t)[0]? with
      | none => simp [hp, hq0] at h
      | some nsName =>
        cases hq1 : (findQuoted t)[1]? with
        | none => simp [hp, hq0, hq1] at h
        | some lvl =>
          simp only [hp, if_true, hq0, hq1, Option.map_some'] at h
          right
          refine ⟨nsName, lvl, ?_⟩
          rw [← Option.some.inj h, simple_forward_PSViolations]
    · have hp' : goStartsWith t nsWarningPre = false := by simpa using hp
      cases hl : w.PSViolations.getLast? with
      | none => simp [hp', hl] at h
      | some lastV =>
        cases hs1 : (goSplit t ":")[1]? with
        | none => simp [hp', hl, hs1] at h
        | some second =>
          simp only [hp', Bool.false_eq_true, if_false, hl, hs1, Option.map_some'] at h
          left
          rw [← Option.some.inj h, simple_forward_PSViolations]

theorem simple_run_no_pods (msgs : List String) : ∀ w w' : Simple.warningsMapper,
    Simple.runWarnings w msgs = some w' →
    (∀ v ∈ w.PSViolations, v.PodViolations = []) →
    ∀ v ∈ w'.PSViolations, v.PodViolations = [] := by
  induction msgs with
  | nil =>
      intro w w' h hinv
      unfold Simple.runWarnings at h
      cases h
      exact hinv
  | cons t r ih =>
      intro w w' h hinv
      unfold Simple.runWarnings at h
      cases hh : w.HandleWarningHeader 0 "" t with
      | none => rw [hh] at h; cases h
      | some w1 =>
          rw [hh] at h
          refine ih w1 w' h ?_
          rcases simple_handle_cases w 0 "" t w1 hh with hsame | ⟨nsName, lvl, happ⟩
          · rw [hsame]; exact hinv
          · rw [happ]
            intro v hv
            rcases List.mem_append.mp hv with hv | hv
            · exact hinv v hv
            · simp only [List.mem_singleton] at hv
              rw [hv]

/-- C9: in the value-based aggregator variant the pod-shape branch
appends to a value copy of the last stored violation, so every completed
run leaves every stored namespace violation with an empty pod list; in
particular on the worked two-message example its observable report
differs from the canonical pointer-based variant's. -/
theorem claim_c9 :
    (∀ (msgs : List String) (w' : Simple.warningsMapper),
        Simple.runWarnings Simple.emptyMapper msgs = some w' →
        ∀ v ∈ w'.PSViolations, v.PodViolations = []) ∧
    (runWarnings emptyMapper [demoNsText, demoPodText]).map
        (fun w => w.PSViolations.map projPS) ≠
      (Simple.runWarnings Simple.emptyMapper [demoNsText, demoPodText]).map
        (fun w => w.PSViolations.map projPSV) := by
  constructor
  · intro msgs w' h
    refine simple_run_no_pods msgs Simple.emptyMapper w' h ?_
    intro v hv
    cases hv
  · decide

/-- C9 witness: on the worked two-message example the value-based
variant completes with the namespace violation recorded but its pod
list empty. -/
theorem claim_c9_witness :
    Simple.runWarnings Simple.emptyMapper [demoNsText, demoPodText] = some simpleDemoResult ∧
    ∀ v ∈ simpleDemoResult.PSViolations, v.PodViolations = [] := by
  refine ⟨by decide, ?_⟩
  exact claim_c9.1 [demoNsText, demoPodText] simpleDemoResult (by decide)
